import Mathlib

set_option maxRecDepth 8000

/- Verification of the data loading, normalization and join/aggregation
pipeline of `src/main.py` (a Streamlit dashboard over per-school plant
growth data).  External machinery is modelled explicitly: a directory is
a list of named entries, a CSV file is its list of rows, a workbook is
its list of named sheets, a pandas DataFrame is a list of rows.  Unicode
NFC normalization (`unicodedata.normalize("NFC", ·)`) is an external
library routine; every statement about the resolver is proved for an
arbitrary normalization function, which the code only ever applies to
both sides of a comparison.  The floating point values occurring in the
pipeline (EC targets 4.0 / 2.0 / 8.0 / 6.0, fresh weights) are modelled
as rationals; the comparisons the claims are about are exact in both
representations. -/

/- A directory entry (a `pathlib.Path` as yielded by `Path.iterdir`):
a file name together with the file's parsed content. -/
structure DirEntry (α : Type) where
  name : String
  content : α
deriving DecidableEq

/- `find_file_by_normalized_name` (src/main.py lines 39-44): return the
first directory entry whose normalized name equals the normalized
target, or `none`.  `normalize_name` (line 36) fixes NFC; here the
normalization function is a parameter. -/
def find_file_by_normalized_name (normalize : String → String)
    (dir : List (DirEntry α)) (target_name : String) : Option (DirEntry α) :=
  dir.find? (fun p => normalize p.name == normalize target_name)

/- A row of an environment CSV after the loader stamps it (line 66 of
src/main.py, `df["school"] = csv_name.split("_")[0]`): the original row
content plus the derived `school` column. -/
structure EnvRow (α : Type) where
  data : α
  school : String
deriving DecidableEq

/- The fixed, ordered list of expected environment CSV names
(src/main.py lines 55-60). -/
def env_csv_names : List String :=
  ["송도고_환경데이터.csv", "하늘고_환경데이터.csv",
   "아라고_환경데이터.csv", "동산고_환경데이터.csv"]

/- `csv_name.split("_")[0]` (line 66): the characters of the name that
precede the first underscore. -/
def school_of_csv_name (csv_name : String) : String :=
  String.mk (csv_name.toList.takeWhile (fun c => c != '_'))

/- One pass of the loop body of `load_environment_data` (lines 55-67),
recursing over the remaining expected CSV names.  For each name: resolve
it (line 61); a failed resolution aborts the whole load with the message
of line 63 (the Python returns `None` after `st.error`; the `Except`
error value carries that message).  A resolved file is parsed into its
rows, each stamped with the school label (line 66); the dictionary key
is `df["school"].iloc[0]` (line 67), which on an empty file raises an
`IndexError` (modelled as the corresponding error value). -/
def load_env_go (normalize : String → String) (dir : List (DirEntry (List α))) :
    List String → Except String (List (String × List (EnvRow α)))
  | [] => Except.ok []
  | csv_name :: rest =>
    match find_file_by_normalized_name normalize dir csv_name with
    | none => Except.error ("파일을 찾을 수 없습니다: " ++ csv_name)
    | some f =>
      match f.content.map (fun row => EnvRow.mk row (school_of_csv_name csv_name)) with
      | [] => Except.error "IndexError: single positional indexer is out-of-bounds"
      | r0 :: tl =>
        match load_env_go normalize dir rest with
        | Except.error e => Except.error e
        | Except.ok m => Except.ok ((r0.school, r0 :: tl) :: m)

/- `load_environment_data` (src/main.py lines 51-68). -/
def load_environment_data (normalize : String → String)
    (dir : List (DirEntry (List α))) :
    Except String (List (String × List (EnvRow α))) :=
  load_env_go normalize dir env_csv_names

/- Decidable well-formedness of one expected CSV in a directory: it
resolves and parses to at least one row. -/
def resolves_nonempty (normalize : String → String)
    (dir : List (DirEntry (List α))) (name : String) : Bool :=
  match find_file_by_normalized_name normalize dir name with
  | some f => !f.content.isEmpty
  | none => false

/- A row of a growth sheet after the loader stamps it (src/main.py line
87, `df["학교"] = sheet`): the original row content plus the derived
school column. -/
structure GrowthRow (β : Type) where
  data : β
  school : String
deriving DecidableEq

/- `pathlib.Path.suffix` for a plain file name: the final extension
including its dot, empty when the name has no dot, starts with its only
dot, or ends with its last dot. -/
def path_suffix (name : String) : String :=
  let cs := name.toList
  let after := (cs.reverse.takeWhile (fun c => c != '.')).reverse
  if after.length = cs.length then ""
  else if after.length = 0 then ""
  else if cs.length = after.length + 1 then ""
  else String.mk ('.' :: after)

/- The workbook search loop of `load_growth_data` (src/main.py lines
73-77): the first directory entry whose suffix is `.xlsx`. -/
def find_xlsx (dir : List (DirEntry α)) : Option (DirEntry α) :=
  dir.find? (fun p => path_suffix p.name == ".xlsx")

/- One sheet of the workbook parsed and stamped (lines 86-87). -/
def stamp_sheet (sheet_name : String) (rows : List β) : List (GrowthRow β) :=
  rows.map (fun row => GrowthRow.mk row sheet_name)

/- `load_growth_data` (src/main.py lines 70-89).  A workbook is its list
of named sheets in `sheet_names` order; the loader stamps each sheet's
rows with the sheet name and returns the mapping together with the
workbook's file name.  When no `.xlsx` entry exists the Python shows the
line-80 message and returns `None`; the `Except` error value carries
that message. -/
def load_growth_data (dir : List (DirEntry (List (String × List β)))) :
    Except String (List (String × List (GrowthRow β)) × String) :=
  match find_xlsx dir with
  | none => Except.error "생육 결과 XLSX 파일을 찾을 수 없습니다."
  | some wb =>
    Except.ok (wb.content.map (fun sb => (sb.1, stamp_sheet sb.1 sb.2)), wb.name)

/- `growth_all = pd.concat(growth_data.values())` (src/main.py line
136): the unified table is the concatenation of the per-school tables in
mapping order.  (`env_all` at line 157 is the same operation on the
environment mapping.) -/
def growth_all (data : List (String × List σ)) : List σ :=
  (data.map Prod.snd).flatten

/- A growth row after the join step (src/main.py line 138,
`growth_all["EC"] = growth_all["학교"].map(ec_map)`): the stamped row
plus its derived EC value.  `Series.map` over a dict leaves keys outside
the dict as NaN, modelled as `none`. -/
structure GrowthRowEC (β : Type) where
  data : β
  school : String
  ec : Option ℚ
deriving DecidableEq

/- `ec_map` (src/main.py line 137) as the lookup performed by
`Series.map`: the four fixed schools map to their target EC, every other
label to NaN (`none`). -/
def ec_map (s : String) : Option ℚ :=
  if s = "송도고" then some 4
  else if s = "하늘고" then some 2
  else if s = "아라고" then some 8
  else if s = "동산고" then some 6
  else none

/- Row-wise view of line 138: attach the derived EC to every row of the
unified growth table. -/
def attach_ec (rows : List (GrowthRow β)) : List (GrowthRowEC β) :=
  rows.map (fun r => GrowthRowEC.mk r.data r.school (ec_map r.school))

/- Arithmetic mean of a pandas Series (`Series.mean`); only ever applied
to nonempty groups below. -/
def series_mean (l : List ℚ) : ℚ :=
  l.sum / l.length

/- The fresh-weight values of one EC group: `growth_all.groupby("EC")`
collects the rows whose (non-null) EC equals the group key; the
`["생중량(g)"]` column selection is the `weight` projection of the
opaque row content. -/
def group_values (weight : β → ℚ) (rows : List (GrowthRowEC β)) (k : ℚ) : List ℚ :=
  rows.filterMap (fun r => if r.ec = some k then some (weight r.data) else none)

/- Mean fresh weight of one EC group
(`growth_all.groupby("EC")["생중량(g)"].mean()` evaluated at key `k`). -/
def group_mean (weight : β → ℚ) (rows : List (GrowthRowEC β)) (k : ℚ) : ℚ :=
  series_mean (group_values weight rows k)

/- The group keys of `growth_all.groupby("EC")`: the distinct non-null
EC values, sorted ascending (pandas `groupby` drops NaN keys and sorts
group keys by default). -/
def group_keys (rows : List (GrowthRowEC β)) : List ℚ :=
  List.insertionSort (· ≤ ·) (rows.filterMap (fun r => r.ec)).dedup

/- `Series.idxmax`: scan the (index, value) pairs keeping the first
index whose value is strictly greater than the best so far — the result
is the first index attaining the maximum value. -/
def idxmaxGo (best_k best_v : ℚ) : List (ℚ × ℚ) → ℚ
  | [] => best_k
  | (k, v) :: rest => if best_v < v then idxmaxGo k v rest else idxmaxGo best_k best_v rest

def idxmax : List (ℚ × ℚ) → Option ℚ
  | [] => none
  | (k, v) :: rest => some (idxmaxGo k v rest)

/- `optimal_ec` (src/main.py lines 139-143):
`growth_all.groupby("EC")["생중량(g)"].mean().idxmax()` — the series of
per-group mean fresh weights, indexed by the ascending group keys, fed
to `idxmax`.  An empty series makes `idxmax` raise (`none` here). -/
def optimal_ec (weight : β → ℚ) (rows : List (GrowthRowEC β)) : Option ℚ :=
  idxmax ((group_keys rows).map (fun k => (k, group_mean weight rows k)))

/- The end-to-end scenario of the spec: sheets 송도고 (EC 4.0) and
하늘고 (EC 2.0), ten rows each, with constant fresh weights 5 and 10;
rows carry only the fresh-weight column, so the column projection is the
identity. -/
def c1_growth_data : List (String × List (GrowthRow ℚ)) :=
  [("송도고", stamp_sheet "송도고" (List.replicate 10 (5 : ℚ))),
   ("하늘고", stamp_sheet "하늘고" (List.replicate 10 (10 : ℚ)))]

/- A tie scenario: 송도고 (EC 4.0) and 하늘고 (EC 2.0), one row each,
equal fresh weight 7. -/
def c10_growth_data : List (String × List (GrowthRow ℚ)) :=
  [("송도고", stamp_sheet "송도고" [(7 : ℚ)]),
   ("하늘고", stamp_sheet "하늘고" [(7 : ℚ)])]

/- The unified growth DataFrame as an object with an optional EC column:
`pd.concat` (line 136) produces it without an EC column; the assignment
`growth_all["EC"] = growth_all["학교"].map(ec_map)` (line 138) then adds
the column to that same object in place. -/
structure GrowthTable (β : Type) where
  rows : List (GrowthRow β)
  ecCol : Option (List (Option ℚ))
deriving DecidableEq

/- The state of the `growth_all` object right after line 136. -/
def growth_all_table (data : List (String × List (GrowthRow β))) : GrowthTable β :=
  GrowthTable.mk (growth_all data) none

/- The in-place column assignment of line 138 applied to that object. -/
def assign_ec_column (t : GrowthTable β) : GrowthTable β :=
  GrowthTable.mk t.rows (some (t.rows.map (fun r => ec_map r.school)))

/-- C5: the filename resolver, given a directory listing and a target
name, returns an entry of the listing whose normalized name equals the
normalized target whenever one exists, and returns `none` exactly when
no entry's normalized name equals the normalized target. -/
theorem find_file_by_normalized_name_spec (normalize : String → String)
    (dir : List (DirEntry α)) (target_name : String) :
    (∀ e, find_file_by_normalized_name normalize dir target_name = some e →
        e ∈ dir ∧ normalize e.name = normalize target_name) ∧
    ((∃ e ∈ dir, normalize e.name = normalize target_name) →
        ∃ e, find_file_by_normalized_name normalize dir target_name = some e ∧
          normalize e.name = normalize target_name) ∧
    (find_file_by_normalized_name normalize dir target_name = none ↔
        ∀ e ∈ dir, normalize e.name ≠ normalize target_name) := by
  unfold find_file_by_normalized_name
  refine ⟨?_, ?_, ?_⟩
  · intro e he
    refine ⟨List.mem_of_find?_eq_some he, ?_⟩
    have h := List.find?_some he
    simpa using h
  · intro hex
    cases hfind : dir.find? (fun p => normalize p.name == normalize target_name) with
    | none =>
        obtain ⟨e, hmem, heq⟩ := hex
        have h := List.find?_eq_none.mp hfind e hmem
        simp [heq] at h
    | some e =>
        have h := List.find?_some hfind
        exact ⟨e, rfl, by simpa using h⟩
  · constructor
    · intro hn e hmem
      have h := List.find?_eq_none.mp hn e hmem
      simpa using h
    · intro h
      exact List.find?_eq_none.mpr (fun e hmem => by simpa using h e hmem)

/-- C5 witness: a one-entry listing whose entry matches the target under
the identity normalization; the resolver finds it. -/
theorem find_file_by_normalized_name_spec_witness :
    (∃ e ∈ [DirEntry.mk "하늘고_환경데이터.csv" ()],
        id e.name = id "하늘고_환경데이터.csv") ∧
    (∃ e, find_file_by_normalized_name id [DirEntry.mk "하늘고_환경데이터.csv" ()]
        "하늘고_환경데이터.csv" = some e ∧ id e.name = id "하늘고_환경데이터.csv") :=
  ⟨by decide,
   (find_file_by_normalized_name_spec id [DirEntry.mk "하늘고_환경데이터.csv" ()]
      "하늘고_환경데이터.csv").2.1 (by decide)⟩

theorem load_env_go_ne_ok (normalize : String → String)
    (dir : List (DirEntry (List α))) :
    ∀ names : List String,
      (∃ name ∈ names, find_file_by_normalized_name normalize dir name = none) →
      ∀ m, load_env_go normalize dir names ≠ Except.ok m := by
  intro names
  induction names with
  | nil => rintro ⟨x, hx, -⟩ m; cases hx
  | cons n rest ih =>
    rintro ⟨x, hx, hfx⟩ m hok
    simp only [load_env_go] at hok
    cases hf : find_file_by_normalized_name normalize dir n with
    | none => simp only [hf] at hok; exact Except.noConfusion hok
    | some f =>
      simp only [hf] at hok
      have hxrest : x ∈ rest := by
        rcases List.mem_cons.mp hx with h | h
        · subst h; rw [hfx] at hf; cases hf
        · exact h
      cases hc : f.content.map (fun row => EnvRow.mk row (school_of_csv_name n)) with
      | nil => simp only [hc] at hok; exact Except.noConfusion hok
      | cons r0 tl =>
        simp only [hc] at hok
        cases hrec : load_env_go normalize dir rest with
        | error e => simp only [hrec] at hok; exact Except.noConfusion hok
        | ok m2 => exact absurd hrec (ih ⟨x, hxrest, hfx⟩ m2)

theorem load_env_go_error_missing (normalize : String → String)
    (dir : List (DirEntry (List α)))
    (hwf : ∀ name f, find_file_by_normalized_name normalize dir name = some f →
      f.content ≠ []) :
    ∀ names : List String,
      (∃ name ∈ names, find_file_by_normalized_name normalize dir name = none) →
      ∃ bad ∈ names, find_file_by_normalized_name normalize dir bad = none ∧
        load_env_go normalize dir names =
          Except.error ("파일을 찾을 수 없습니다: " ++ bad) := by
  intro names
  induction names with
  | nil => rintro ⟨x, hx, -⟩; cases hx
  | cons n rest ih =>
    rintro ⟨x, hx, hfx⟩
    cases hf : find_file_by_normalized_name normalize dir n with
    | none =>
      refine ⟨n, List.mem_cons_self n rest, hf, ?_⟩
      simp only [load_env_go, hf]
    | some f =>
      have hxrest : x ∈ rest := by
        rcases List.mem_cons.mp hx with h | h
        · subst h; rw [hfx] at hf; cases hf
        · exact h
      obtain ⟨bad, hbmem, hbnone, hbgo⟩ := ih ⟨x, hxrest, hfx⟩
      refine ⟨bad, List.mem_cons_of_mem n hbmem, hbnone, ?_⟩
      have hcne : f.content ≠ [] := hwf n f hf
      cases hc : f.content with
      | nil => exact absurd hc hcne
      | cons c0 ctl =>
        simp only [load_env_go, hf, hc, List.map, hbgo]

/-- C4: if any one of the four expected environment CSV names fails to
resolve in the data directory, the environment load fails as a whole: it
never returns a (possibly partial) mapping, and — whenever every file
that does resolve is well formed (nonempty) — it returns the error value
whose message names a missing filename. -/
theorem load_environment_data_fails_whole (normalize : String → String)
    (dir : List (DirEntry (List α)))
    (hmiss : ∃ name ∈ env_csv_names,
      find_file_by_normalized_name normalize dir name = none) :
    (∀ m, load_environment_data normalize dir ≠ Except.ok m) ∧
    ((∀ name f, find_file_by_normalized_name normalize dir name = some f →
        f.content ≠ []) →
      ∃ bad ∈ env_csv_names,
        find_file_by_normalized_name normalize dir bad = none ∧
        load_environment_data normalize dir =
          Except.error ("파일을 찾을 수 없습니다: " ++ bad)) :=
  ⟨fun m => load_env_go_ne_ok normalize dir env_csv_names hmiss m,
   fun hwf => load_env_go_error_missing normalize dir hwf env_csv_names hmiss⟩

/-- C4 witness: over an empty data directory every expected CSV is
missing; the load returns the error value naming a missing file. -/
theorem load_environment_data_fails_whole_witness :
    (∃ name ∈ env_csv_names,
      find_file_by_normalized_name id ([] : List (DirEntry (List Unit))) name = none) ∧
    (∀ m, load_environment_data id ([] : List (DirEntry (List Unit))) ≠ Except.ok m) ∧
    (∃ bad ∈ env_csv_names,
      find_file_by_normalized_name id ([] : List (DirEntry (List Unit))) bad = none ∧
      load_environment_data id ([] : List (DirEntry (List Unit))) =
        Except.error ("파일을 찾을 수 없습니다: " ++ bad)) := by
  refine ⟨by decide, ?_⟩
  have h := load_environment_data_fails_whole id ([] : List (DirEntry (List Unit)))
    (by decide)
  exact ⟨h.1, h.2 (fun name f hf => by simp [find_file_by_normalized_name] at hf)⟩

theorem load_env_go_ok (normalize : String → String)
    (dir : List (DirEntry (List α))) :
    ∀ names : List String,
      (∀ name ∈ names, resolves_nonempty normalize dir name = true) →
      ∃ m, load_env_go normalize dir names = Except.ok m ∧
        m.map Prod.fst = names.map school_of_csv_name ∧
        ∀ p ∈ m, ∀ r ∈ p.2, r.school = p.1 := by
  intro names
  induction names with
  | nil => intro h; exact ⟨[], rfl, rfl, by simp⟩
  | cons n rest ih =>
    intro h
    have hn := h n (List.mem_cons_self n rest)
    unfold resolves_nonempty at hn
    cases hf : find_file_by_normalized_name normalize dir n with
    | none => rw [hf] at hn; simp at hn
    | some f =>
      rw [hf] at hn
      simp only at hn
      obtain ⟨m, hm, hkeys, hstamp⟩ := ih (fun x hx => h x (List.mem_cons_of_mem n hx))
      cases hc : f.content with
      | nil => rw [hc] at hn; simp at hn
      | cons c0 ctl =>
        refine ⟨(school_of_csv_name n,
            (c0 :: ctl).map (fun row => EnvRow.mk row (school_of_csv_name n))) :: m,
          ?_, ?_, ?_⟩
        · simp only [load_env_go, hf, hc, List.map, hm]
        · simp [hkeys]
        · intro p hp
          rcases List.mem_cons.mp hp with h1 | h1
          · subst h1
            intro r hr
            obtain ⟨row, -, rfl⟩ := List.mem_map.mp hr
            rfl
          · exact hstamp p h1

/-- C6: given a directory in which each of the four expected CSV names
resolves to a nonempty file, the environment loader succeeds and returns
a mapping whose key list is exactly the four school labels (the text
preceding the first underscore of each expected filename), and every row
of each key's table carries that key in its school column. -/
theorem load_environment_data_keys (normalize : String → String)
    (dir : List (DirEntry (List α)))
    (h : ∀ name ∈ env_csv_names, resolves_nonempty normalize dir name = true) :
    ∃ m, load_environment_data normalize dir = Except.ok m ∧
      m.map Prod.fst = ["송도고", "하늘고", "아라고", "동산고"] ∧
      ∀ p ∈ m, ∀ r ∈ p.2, r.school = p.1 := by
  obtain ⟨m, hm, hkeys, hstamp⟩ := load_env_go_ok normalize dir env_csv_names h
  refine ⟨m, hm, ?_, hstamp⟩
  rw [hkeys]; decide

/-- C6 witness: a directory holding exactly the four expected CSVs, one
row each; the loader returns the four-school mapping. -/
theorem load_environment_data_keys_witness :
    (∀ name ∈ env_csv_names,
      resolves_nonempty id
        [DirEntry.mk "송도고_환경데이터.csv" [()], DirEntry.mk "하늘고_환경데이터.csv" [()],
         DirEntry.mk "아라고_환경데이터.csv" [()], DirEntry.mk "동산고_환경데이터.csv" [()]]
        name = true) ∧
    (∃ m, load_environment_data id
        [DirEntry.mk "송도고_환경데이터.csv" [()], DirEntry.mk "하늘고_환경데이터.csv" [()],
         DirEntry.mk "아라고_환경데이터.csv" [()], DirEntry.mk "동산고_환경데이터.csv" [()]] =
          Except.ok m ∧
      m.map Prod.fst = ["송도고", "하늘고", "아라고", "동산고"] ∧
      ∀ p ∈ m, ∀ r ∈ p.2, r.school = p.1) :=
  ⟨by decide,
   load_environment_data_keys id
     [DirEntry.mk "송도고_환경데이터.csv" [()], DirEntry.mk "하늘고_환경데이터.csv" [()],
      DirEntry.mk "아라고_환경데이터.csv" [()], DirEntry.mk "동산고_환경데이터.csv" [()]]
     (by decide)⟩

/-- C7: when the directory holds a workbook (first entry with the
`.xlsx` suffix), the growth loader returns that workbook's file name
together with a mapping whose key list is exactly the workbook's sheet
names, every row stamped with its sheet's name as school; when no entry
has the `.xlsx` suffix, the load is the error value reporting absence. -/
theorem load_growth_data_spec (dir : List (DirEntry (List (String × List β)))) :
    (∀ wb, find_xlsx dir = some wb →
      ∃ m, load_growth_data dir = Except.ok (m, wb.name) ∧
        m.map Prod.fst = wb.content.map Prod.fst ∧
        ∀ p ∈ m, ∀ r ∈ p.2, r.school = p.1) ∧
    ((∀ e ∈ dir, path_suffix e.name ≠ ".xlsx") →
      load_growth_data dir = Except.error "생육 결과 XLSX 파일을 찾을 수 없습니다.") := by
  constructor
  · intro wb hwb
    refine ⟨wb.content.map (fun sb => (sb.1, stamp_sheet sb.1 sb.2)), ?_, ?_, ?_⟩
    · simp only [load_growth_data, hwb]
    · simp [List.map_map, Function.comp]
    · intro p hp
      obtain ⟨sb, -, rfl⟩ := List.mem_map.mp hp
      intro r hr
      obtain ⟨row, -, rfl⟩ := List.mem_map.mp hr
      rfl
  · intro hnone
    have hfx : find_xlsx dir = none := by
      unfold find_xlsx
      exact List.find?_eq_none.mpr (fun e he => by simpa using hnone e he)
    simp only [load_growth_data, hfx]

/-- C7 witness: a directory with one workbook holding sheets A, B, C;
the loader returns exactly those keys and the workbook's file name. -/
theorem load_growth_data_spec_witness :
    (find_xlsx [DirEntry.mk "생육결과.xlsx"
        [("A", [(1 : ℚ)]), ("B", []), ("C", [(2 : ℚ)])]] =
      some (DirEntry.mk "생육결과.xlsx"
        [("A", [(1 : ℚ)]), ("B", []), ("C", [(2 : ℚ)])])) ∧
    (∃ m, load_growth_data [DirEntry.mk "생육결과.xlsx"
        [("A", [(1 : ℚ)]), ("B", []), ("C", [(2 : ℚ)])]] =
        Except.ok (m, (DirEntry.mk "생육결과.xlsx"
          [("A", [(1 : ℚ)]), ("B", []), ("C", [(2 : ℚ)])]).name) ∧
      m.map Prod.fst = [("A", [(1 : ℚ)]), ("B", []), ("C", [(2 : ℚ)])].map Prod.fst ∧
      ∀ p ∈ m, ∀ r ∈ p.2, r.school = p.1) :=
  ⟨by decide,
   (load_growth_data_spec [DirEntry.mk "생육결과.xlsx"
      [("A", [(1 : ℚ)]), ("B", []), ("C", [(2 : ℚ)])]]).1
     (DirEntry.mk "생육결과.xlsx" [("A", [(1 : ℚ)]), ("B", []), ("C", [(2 : ℚ)])])
     (by decide)⟩

/-- C8: concatenating the per-school growth tables preserves every row
exactly once — the unified table's row count equals the sum of the
per-school row counts. -/
theorem growth_all_length (data : List (String × List σ)) :
    (growth_all data).length = (data.map (fun p => p.2.length)).sum := by
  unfold growth_all
  rw [List.length_flatten, List.map_map]
  rfl

/-- C2: after the join step every row's derived EC equals the fixed
constant of that row's school for each of the four mapped schools. -/
theorem attach_ec_school_constant (rows : List (GrowthRow β))
    (r : GrowthRowEC β) (hr : r ∈ attach_ec rows) :
    (r.school = "송도고" → r.ec = some 4) ∧
    (r.school = "하늘고" → r.ec = some 2) ∧
    (r.school = "아라고" → r.ec = some 8) ∧
    (r.school = "동산고" → r.ec = some 6) := by
  obtain ⟨r0, -, rfl⟩ := List.mem_map.mp hr
  refine ⟨?_, ?_, ?_, ?_⟩ <;>
    · intro hs
      simp only at hs
      simp only [ec_map, hs]
      decide

/-- C2 witness: a unified table with one 하늘고 row; after the join its
EC is 2. -/
theorem attach_ec_school_constant_witness :
    (GrowthRowEC.mk () "하늘고" (some 2) ∈ attach_ec [GrowthRow.mk () "하늘고"]) ∧
    (GrowthRowEC.mk () "하늘고" (some 2)).ec = some 2 :=
  ⟨by decide,
   (attach_ec_school_constant [GrowthRow.mk () "하늘고"]
      (GrowthRowEC.mk () "하늘고" (some 2)) (by decide)).2.1 rfl⟩

/-- C3: the code does not fail on a school outside the EC lookup — the
join step silently succeeds with a null EC, and the optimal-EC group-by
then silently drops the row: a unified table holding one row of the
unmapped school 부산고 joins to `none` and produces no EC group at all.
(The spec requires this situation to fail loudly; the code's
`Series.map` / `groupby` default to silent NaN and silent drop.) -/
theorem attach_ec_unknown_school_silent :
    attach_ec [GrowthRow.mk () "부산고"] = [GrowthRowEC.mk () "부산고" none] ∧
    group_keys (attach_ec [GrowthRow.mk () "부산고"]) = [] ∧
    optimal_ec (fun _ => 0) (attach_ec [GrowthRow.mk () "부산고"]) = none := by
  decide

theorem group_keys_pairwise_lt (rows : List (GrowthRowEC β)) :
    (group_keys rows).Pairwise (fun a b : ℚ => a < b) := by
  have hperm : List.Perm (group_keys rows) (rows.filterMap (fun r => r.ec)).dedup :=
    List.perm_insertionSort _ _
  have hnd : (group_keys rows).Nodup := hperm.nodup_iff.mpr (List.nodup_dedup _)
  have hs : (group_keys rows).Pairwise (fun a b : ℚ => a ≤ b) :=
    List.sorted_insertionSort _ _
  exact (hs.and hnd).imp (fun h => lt_of_le_of_ne h.1 h.2)

theorem idxmaxGo_first_max (l : List (ℚ × ℚ)) :
    ∀ bk bv k v : ℚ,
      ((bk, bv) :: l).Pairwise (fun p q => p.1 < q.1) →
      (k, v) ∈ (bk, bv) :: l →
      (∀ p ∈ (bk, bv) :: l, p.2 ≤ v) →
      (∀ p ∈ (bk, bv) :: l, p.1 < k → p.2 < v) →
      idxmaxGo bk bv l = k := by
  induction l with
  | nil =>
    intro bk bv k v _ hmem _ _
    have h := List.mem_singleton.mp hmem
    simp only [Prod.mk.injEq] at h
    simp only [idxmaxGo]
    exact h.1.symm
  | cons hd tl ih =>
    intro bk bv k v hpair hmem hle hstrict
    obtain ⟨k1, v1⟩ := hd
    simp only [idxmaxGo]
    by_cases hgt : bv < v1
    · rw [if_pos hgt]
      apply ih k1 v1 k v
      · exact (List.pairwise_cons.mp hpair).2
      · rcases List.mem_cons.mp hmem with h | h
        · exfalso
          simp only [Prod.mk.injEq] at h
          have hv1le : v1 ≤ v := hle (k1, v1) (by simp)
          rw [h.2] at hv1le
          exact absurd hgt (not_lt.mpr hv1le)
        · exact h
      · intro p hp; exact hle p (List.mem_cons_of_mem _ hp)
      · intro p hp; exact hstrict p (List.mem_cons_of_mem _ hp)
    · rw [if_neg hgt]
      apply ih bk bv k v
      · have h1 := (List.pairwise_cons.mp hpair).1
        have h2 := (List.pairwise_cons.mp (List.pairwise_cons.mp hpair).2).2
        exact List.pairwise_cons.mpr
          ⟨fun q hq => h1 q (List.mem_cons_of_mem _ hq), h2⟩
      · rcases List.mem_cons.mp hmem with h | h
        · exact List.mem_cons.mpr (Or.inl h)
        · rcases List.mem_cons.mp h with h2 | h2
          · exfalso
            simp only [Prod.mk.injEq] at h2
            have hbk : bk < k1 := by
              have hh := (List.pairwise_cons.mp hpair).1 (k1, v1) (by simp)
              simpa using hh
            have hbv : bv < v := by
              apply hstrict (bk, bv) (List.mem_cons_self _ _)
              rw [h2.1]
              exact hbk
            rw [h2.2] at hbv
            exact hgt hbv
          · exact List.mem_cons.mpr (Or.inr h2)
      · intro p hp
        rcases List.mem_cons.mp hp with rfl | h
        · exact hle _ (List.mem_cons_self _ _)
        · exact hle p (List.mem_cons_of_mem _ (List.mem_cons_of_mem _ h))
      · intro p hp
        rcases List.mem_cons.mp hp with rfl | h
        · exact hstrict _ (List.mem_cons_self _ _)
        · exact hstrict p (List.mem_cons_of_mem _ (List.mem_cons_of_mem _ h))

theorem idxmax_first_max (l : List (ℚ × ℚ)) (k v : ℚ)
    (hpair : l.Pairwise (fun p q => p.1 < q.1))
    (hmem : (k, v) ∈ l)
    (hle : ∀ p ∈ l, p.2 ≤ v)
    (hstrict : ∀ p ∈ l, p.1 < k → p.2 < v) :
    idxmax l = some k := by
  cases l with
  | nil => cases hmem
  | cons hd tl =>
    obtain ⟨k0, v0⟩ := hd
    simp only [idxmax]
    exact congrArg some (idxmaxGo_first_max tl k0 v0 k v hpair hmem hle hstrict)

theorem optimal_ec_eq_of (weight : β → ℚ) (rows : List (GrowthRowEC β)) (k : ℚ)
    (hk : k ∈ group_keys rows)
    (hle : ∀ j ∈ group_keys rows,
      group_mean weight rows j ≤ group_mean weight rows k)
    (hstrict : ∀ j ∈ group_keys rows, j < k →
      group_mean weight rows j < group_mean weight rows k) :
    optimal_ec weight rows = some k := by
  unfold optimal_ec
  apply idxmax_first_max _ k (group_mean weight rows k)
  · exact List.pairwise_map.mpr (group_keys_pairwise_lt rows)
  · exact List.mem_map_of_mem _ hk
  · intro p hp
    obtain ⟨j, hj, rfl⟩ := List.mem_map.mp hp
    exact hle j hj
  · intro p hp
    obtain ⟨j, hj, rfl⟩ := List.mem_map.mp hp
    exact hstrict j hj

/-- C1: whenever one EC group's mean fresh weight is strictly greater
than every other group's, the overview metric — group by EC, take the
mean fresh weight, take `idxmax` — returns that EC. -/
theorem optimal_ec_strict_max (weight : β → ℚ) (rows : List (GrowthRowEC β))
    (k : ℚ) (hk : k ∈ group_keys rows)
    (hmax : ∀ j ∈ group_keys rows, j ≠ k →
      group_mean weight rows j < group_mean weight rows k) :
    optimal_ec weight rows = some k :=
  optimal_ec_eq_of weight rows k hk
    (fun j hj => by
      rcases eq_or_ne j k with h | h
      · rw [h]
      · exact le_of_lt (hmax j hj h))
    (fun j hj hlt => hmax j hj (ne_of_lt hlt))

/-- C1 witness: in the two-school scenario (송도고 at EC 4.0, weights all
5; 하늘고 at EC 2.0, weights all 10) the EC 2.0 group's mean is strictly
maximal and the optimal EC resolves to 2.0. -/
theorem optimal_ec_strict_max_witness :
    ((2 : ℚ) ∈ group_keys (attach_ec (growth_all c1_growth_data)) ∧
      ∀ j ∈ group_keys (attach_ec (growth_all c1_growth_data)), j ≠ 2 →
        group_mean id (attach_ec (growth_all c1_growth_data)) j <
          group_mean id (attach_ec (growth_all c1_growth_data)) 2) ∧
    optimal_ec id (attach_ec (growth_all c1_growth_data)) = some 2 :=
  ⟨⟨by decide, by with_unfolding_all decide⟩,
   optimal_ec_strict_max id (attach_ec (growth_all c1_growth_data)) 2
     (by decide) (by with_unfolding_all decide)⟩

/-- C10: when several EC groups tie for the maximal mean fresh weight,
the computation deterministically returns the smallest such EC: the
group keys are sorted ascending and `idxmax` keeps the first index
attaining the maximum. -/
theorem optimal_ec_tie_smallest (weight : β → ℚ) (rows : List (GrowthRowEC β))
    (k : ℚ) (hk : k ∈ group_keys rows)
    (hmax : ∀ j ∈ group_keys rows,
      group_mean weight rows j ≤ group_mean weight rows k)
    (hmin : ∀ j ∈ group_keys rows,
      group_mean weight rows j = group_mean weight rows k → k ≤ j) :
    optimal_ec weight rows = some k :=
  optimal_ec_eq_of weight rows k hk hmax
    (fun j hj hlt =>
      lt_of_le_of_ne (hmax j hj)
        (fun he => absurd (hmin j hj he) (not_le.mpr hlt)))

/-- C10 witness: with EC groups 2.0 and 4.0 both at mean fresh weight 7
the optimal EC resolves to the smaller key 2.0. -/
theorem optimal_ec_tie_smallest_witness :
    ((2 : ℚ) ∈ group_keys (attach_ec (growth_all c10_growth_data)) ∧
      (∀ j ∈ group_keys (attach_ec (growth_all c10_growth_data)),
        group_mean id (attach_ec (growth_all c10_growth_data)) j ≤
          group_mean id (attach_ec (growth_all c10_growth_data)) 2) ∧
      (∀ j ∈ group_keys (attach_ec (growth_all c10_growth_data)),
        group_mean id (attach_ec (growth_all c10_growth_data)) j =
          group_mean id (attach_ec (growth_all c10_growth_data)) 2 → 2 ≤ j)) ∧
    optimal_ec id (attach_ec (growth_all c10_growth_data)) = some 2 :=
  ⟨⟨by decide, by with_unfolding_all decide, by with_unfolding_all decide⟩,
   optimal_ec_tie_smallest id (attach_ec (growth_all c10_growth_data)) 2
     (by decide) (by with_unfolding_all decide) (by with_unfolding_all decide)⟩

/-- C9 counterexample: the pipeline does mutate the unified growth table
after producing it — line 138 assigns the derived EC column onto the
concatenated table in place, so from that point on the object bound to
`growth_all` no longer equals the plain concatenation of the per-school
tables (which carries no EC column). -/
theorem growth_all_mutated_by_ec_assign :
    assign_ec_column (growth_all_table [("하늘고", [GrowthRow.mk (5 : ℚ) "하늘고"])]) ≠
      growth_all_table [("하늘고", [GrowthRow.mk (5 : ℚ) "하늘고"])] := by
  decide

/-- C9 amended: the EC-column assignment of the join step is the only
modification of the unified growth table, and it changes nothing but the
EC column: the row contents of the table after line 138 are still
exactly the plain concatenation of the per-school tables, and the added
column is the row-wise EC lookup. -/
theorem assign_ec_column_only_adds_ec (data : List (String × List (GrowthRow β))) :
    (assign_ec_column (growth_all_table data)).rows = growth_all data ∧
    (assign_ec_column (growth_all_table data)).ecCol =
      some ((growth_all data).map (fun r => ec_map r.school)) :=
  ⟨rfl, rfl⟩
